import Mathlib

/-!
Shallow embedding of the operations of `app.py`, a Flask front end for the
MET collection API: search-parameter construction (`search_objects`),
client-side pagination over the search results (`index`), the bounded-retry
random picker (`pick_random_object`), the `/random` route, and the
`functools.lru_cache` memoization wrapping `get_departments` / `get_object`.

HTTP effects are abstracted: an upstream call that may raise `MetAPIError`
is a value of `Except Unit α`; the JSON records are structures holding the
fields the code reads, with `Option` for fields `dict.get` may miss.
Python truthiness of optional strings / ints is made explicit.
-/

set_option autoImplicit false

/-- Python truthiness of an optional string: `None` and the empty string are
falsy, every other string is truthy. -/
def truthyStr : Option String → Bool
  | none => false
  | some s => s ≠ ""

/-- Python truthiness of an optional integer: `None` and `0` are falsy. -/
def truthyInt : Option Int → Bool
  | none => false
  | some i => i ≠ 0

/-- Python `a or b` on two optional strings: `a` when truthy, else `b`. -/
def pyOrStr (a b : Option String) : Option String :=
  if truthyStr a then a else b

/-- Python `x or []` on an optional list of ids: `None` and `[]` give `[]`,
any other list is returned as is. -/
def pyOrNil (x : Option (List Int)) : List Int :=
  match x with
  | none => []
  | some l => if l = [] then [] else l

/-- The JSON record of one museum object, restricted to the fields
`app.py` reads (`objectID`, `title`, `artistDisplayName`, `objectDate`,
`primaryImageSmall`, `primaryImage`, `repository`). -/
structure ObjRecord where
  objectID : Option Int
  title : Option String
  artistDisplayName : Option String
  objectDate : Option String
  primaryImageSmall : Option String
  primaryImage : Option String
  repository : Option String
deriving DecidableEq

/-- One department entry of the `/departments` response. -/
structure Department where
  departmentId : Int
  displayName : String
deriving DecidableEq

/-- The query parameters `search_objects` sends to the upstream `/search`
endpoint; an absent optional parameter is `none`. -/
structure SearchParams where
  q : String
  hasImages : Option String
  departmentId : Option Int
  artistOrCulture : Option String
deriving DecidableEq

/-- The parameter dict built by `search_objects` (`app.py` lines 48-60):
`q` falls back to the wildcard when empty, `hasImages` is sent exactly when
the flag is on, and the two optional filters are sent when Python-truthy
(`if department_id:` / `if artist_or_culture:`). -/
def search_params (q : String) (has_images : Bool) (department_id : Option Int)
    (artist_or_culture : Option String) : SearchParams :=
  { q := if q = "" then "*" else q
  , hasImages := if has_images then some "true" else none
  , departmentId := if truthyInt department_id then department_id else none
  , artistOrCulture := if truthyStr artist_or_culture then artist_or_culture else none }

/-- The return value of `search_objects` (`app.py` line 63):
`data.get("objectIDs") or []` applied to the upstream response field. -/
def search_objects_ids (objectIDs : Option (List Int)) : List Int :=
  pyOrNil objectIDs

/-- The page number the `index` route actually uses (`app.py` line 268):
`max(request.args.get("page", 1, type=int), 1)`; `none` is an absent or
unparseable query-string value, for which Flask returns the default. -/
def parse_page (raw : Option Int) : Int :=
  max (raw.getD 1) 1

/-- The page size the `index` route actually uses (`app.py` line 269):
`min(max(request.args.get("page_size", 12, type=int), 1), 24)`. -/
def parse_page_size (raw : Option Int) : Int :=
  min (max (raw.getD 12) 1) 24

/-- Outcome of the `/random` route: a redirect to a detail page, or an
HTTP error response. -/
inductive RouteResult where
  | redirectTo (object_id : Int)
  | httpError (code : Nat)
deriving DecidableEq

/-- The `/random` route body (`app.py` lines 374-379): `abort(502)` when the
picked value is Python-falsy (`None` or `0`), otherwise a redirect to the
detail page of `int(oid)`. -/
def random_pick_route (oid : Option Int) : RouteResult :=
  match oid with
  | none => .httpError 502
  | some i => if i = 0 then .httpError 502 else .redirectTo i

/-- Python slice `l[s:e]` for non-negative bounds `s`, `e`. -/
def pySlice {α : Type} (l : List α) (s e : Nat) : List α :=
  (l.take e).drop s

/-- The identifiers of the current result page (`app.py` lines 291-293):
`start = (page - 1) * page_size; end = start + page_size;
page_ids = ids[start:end]`. -/
def index_page_ids (ids : List Int) (page page_size : Nat) : List Int :=
  let start := (page - 1) * page_size
  let stop := start + page_size
  pySlice ids start stop

/-- The total page count the `index` route computes for pagination
(`app.py` lines 313-314, 334-335): `max(1, math.ceil(total / page_size))`
when `total` is truthy, and `0` otherwise. -/
def index_total_pages (total page_size : Nat) : Nat :=
  if total ≠ 0 then max 1 ((total + page_size - 1) / page_size) else 0

/-- Truthiness of `obj.get("primaryImageSmall") or obj.get("primaryImage")`,
the acceptance test of `pick_random_object` (`app.py` line 81). -/
def hasImageRef (obj : ObjRecord) : Bool :=
  truthyStr obj.primaryImageSmall || truthyStr obj.primaryImage

/-- Whether one draw of `pick_random_object` succeeds: its `get_object`
fetch returns a record and that record passes the image test. -/
def draw_accepted (fetch : Int → Except Unit ObjRecord) (oid : Int) : Bool :=
  match fetch oid with
  | .error _ => false
  | .ok obj => hasImageRef obj

/-- The retry loop of `pick_random_object` (`app.py` lines 75-83) over the
list of ids the successive `random.choice` calls will produce: a failing
fetch falls through to the next iteration (`except MetAPIError: continue`),
an accepted record returns its id, and an exhausted list returns `None`. -/
def pick_loop (fetch : Int → Except Unit ObjRecord) : List Int → Option Int
  | [] => none
  | oid :: rest =>
    match fetch oid with
    | .error _ => pick_loop fetch rest
    | .ok obj => if hasImageRef obj then some oid else pick_loop fetch rest

/-- Model of `random.choice(all_ids)`: the random source yields a natural
number `r` and the element at index `r % len(all_ids)` is drawn. -/
def randomChoice (all_ids : List Int) (r : Nat) : Int :=
  all_ids.getD (r % all_ids.length) 0

/-- The ids drawn by the `max_tries` iterations of the loop in
`pick_random_object`: iteration `t` draws `random.choice(all_ids)` from the
full, unmodified list, with `rand t` the random source at iteration `t`. -/
def drawSeq (all_ids : List Int) (rand : Nat → Nat) (max_tries : Nat) : List Int :=
  (List.range max_tries).map (fun t => randomChoice all_ids (rand t))

/-- Default value of the `max_tries` parameter of `pick_random_object`
(`app.py` line 66). -/
def DEFAULT_MAX_TRIES : Nat := 30

/-- `pick_random_object` (`app.py` lines 66-83). `listAll` is the one
upstream call listing all identifiers (the `objectIDs` field of
`GET /objects`, already an `Option` because `dict.get` may miss); its
failure, or an empty list after `or []`, returns `None` at once. Otherwise
the bounded retry loop runs over the drawn ids. -/
def pick_random_object (listAll : Except Unit (Option (List Int)))
    (fetch : Int → Except Unit ObjRecord) (rand : Nat → Nat) (max_tries : Nat) :
    Option Int :=
  match listAll with
  | .error _ => none
  | .ok objectIDs =>
    let all_ids := pyOrNil objectIDs
    if all_ids = [] then none
    else pick_loop fetch (drawSeq all_ids rand max_tries)

/-- One card of the result grid: the dict `index` appends per object
(`app.py` lines 299-307); `detail_url` keeps the id passed to `url_for`. -/
structure ResultItem where
  objectID : Option Int
  title : Option String
  artist : Option String
  date : Option String
  img : Option String
  repo : Option String
  detail_url : Option Int
deriving DecidableEq

/-- The dict built from one fetched record (`app.py` lines 299-307). -/
def result_item (obj : ObjRecord) : ResultItem :=
  { objectID := obj.objectID
  , title := obj.title
  , artist := obj.artistDisplayName
  , date := obj.objectDate
  , img := pyOrStr obj.primaryImageSmall obj.primaryImage
  , repo := obj.repository
  , detail_url := obj.objectID }

/-- The per-page fetch loop of `index` (`app.py` lines 294-307): each id of
the current page is fetched, a `MetAPIError` skips that id
(`except MetAPIError: continue`), and every other record becomes a card. -/
def build_results (fetch : Int → Except Unit ObjRecord) : List Int → List ResultItem
  | [] => []
  | oid :: rest =>
    match fetch oid with
    | .error _ => build_results fetch rest
    | .ok obj => result_item obj :: build_results fetch rest

/-- The search section of the `index` route (`app.py` lines 287-309):
result cards, `total`, and `error_msg`. A failure of `search_objects`
leaves the results empty and sets the page-level error message; on success
the whole per-page loop runs and no `MetAPIError` can escape it. -/
def index_search (search : Except Unit (List Int))
    (fetch : Int → Except Unit ObjRecord) (page page_size : Nat) :
    List ResultItem × Nat × Option Unit :=
  match search with
  | .error e => ([], 0, some e)
  | .ok ids =>
    let total := ids.length
    let page_ids := index_page_ids ids page page_size
    (build_results fetch page_ids, total, none)

/-- State of a `functools.lru_cache(maxsize=m)` wrapper: the cached
key-value pairs, most recently used first. -/
structure LruCache (K V : Type) where
  maxsize : Nat
  entries : List (K × V)
deriving DecidableEq

/-- The `maxsize` of the cache on `get_object` (`app.py` line 43). -/
def GET_OBJECT_CACHE_MAXSIZE : Nat := 4096

/-- The `maxsize` of the cache on `get_departments` (`app.py` line 37). -/
def GET_DEPARTMENTS_CACHE_MAXSIZE : Nat := 1

/-- Cached value for a key, if present. -/
def lruFind {K V : Type} [DecidableEq K] : List (K × V) → K → Option V
  | [], _ => none
  | (k', v) :: rest, k => if k' = k then some v else lruFind rest k

/-- Entries with the given key removed. -/
def lruRemove {K V : Type} [DecidableEq K] (es : List (K × V)) (k : K) : List (K × V) :=
  es.filter (fun p => decide (p.1 ≠ k))

/-- Cache state after a hit on key `k` with cached value `v`: the entry
moves to the most-recently-used position. -/
def lruHitState {K V : Type} [DecidableEq K] (c : LruCache K V) (k : K) (v : V) :
    LruCache K V :=
  ⟨c.maxsize, (k, v) :: lruRemove c.entries k⟩

/-- Cache state after a miss on key `k` whose underlying call returned `v`:
the new entry becomes most recent and, past capacity, the least recently
used entry is discarded. -/
def lruInsertState {K V : Type} (c : LruCache K V) (k : K) (v : V) : LruCache K V :=
  ⟨c.maxsize, ((k, v) :: c.entries).take c.maxsize⟩

/-- One call through an `lru_cache` wrapper around a fallible upstream
function `f`: on a hit the cached value is returned and `f` is not called;
on a miss `f` runs, a raised error propagates with the cache unchanged, and
a result is cached. The `Bool` records whether `f` was invoked. -/
def lruCall {K V : Type} [DecidableEq K] (f : K → Except Unit V)
    (c : LruCache K V) (k : K) : Except Unit (V × LruCache K V × Bool) :=
  match lruFind c.entries k with
  | some v => .ok (v, lruHitState c k v, false)
  | none =>
    match f k with
    | .error e => .error e
    | .ok v => .ok (v, lruInsertState c k v, true)

/-- Cache state after one call whose upstream `f` always succeeds. -/
def lruStep {K V : Type} [DecidableEq K] (f : K → V) (c : LruCache K V) (k : K) :
    LruCache K V :=
  match lruFind c.entries k with
  | some v => lruHitState c k v
  | none => lruInsertState c k (f k)

/-- Cache state after a sequence of calls whose upstream always succeeds. -/
def lruRun {K V : Type} [DecidableEq K] (f : K → V) (c : LruCache K V) :
    List K → LruCache K V
  | [] => c
  | k :: ks => lruRun f (lruStep f c k) ks

/-- Python slice with end bound start + n is take n after drop start. -/
theorem pySlice_eq_drop_take {α : Type} (l : List α) (s n : Nat) :
    pySlice l s (s + n) = (l.drop s).take n := by
  unfold pySlice
  rw [List.drop_take]
  congr 1
  omega

/-- The page slice of index equals the slice of the spec,
from index (page - 1) * page_size up to page * page_size. -/
theorem index_page_ids_eq_slice (ids : List Int) (page page_size : Nat)
    (hpage : 1 ≤ page) :
    index_page_ids ids page page_size
      = (ids.drop ((page - 1) * page_size)).take
          (page * page_size - (page - 1) * page_size) := by
  obtain ⟨a, rfl⟩ : ∃ a, page = a + 1 := ⟨page - 1, by omega⟩
  simp only [index_page_ids, Nat.add_sub_cancel]
  rw [pySlice_eq_drop_take]
  congr 1
  rw [Nat.succ_mul, Nat.add_sub_cancel_left]

/-- The page count index computes equals the ceiling of total / page_size,
also when total is zero. -/
theorem index_total_pages_eq_ceil (total page_size : Nat) (hps : 1 ≤ page_size) :
    index_total_pages total page_size = (total + page_size - 1) / page_size := by
  unfold index_total_pages
  by_cases h : total = 0
  · subst h
    simp only [ne_eq, not_true_eq_false, if_false]
    rw [Nat.div_eq_of_lt (by omega)]
  · simp only [ne_eq, h, not_false_eq_true, if_true]
    have h1 : 1 ≤ (total + page_size - 1) / page_size := by
      rw [Nat.le_div_iff_mul_le (by omega)]
      omega
    exact max_eq_right h1

/-- C1: for page >= 1 and page_size >= 1, the ids fetched for the current
page are exactly the slice of the full result list from
(page - 1) * page_size up to page * page_size, and the page count computed
for pagination is the ceiling of total / page_size. -/
theorem index_pagination_correct (ids : List Int) (page page_size : Nat)
    (hpage : 1 ≤ page) (hps : 1 ≤ page_size) :
    index_page_ids ids page page_size
      = (ids.drop ((page - 1) * page_size)).take
          (page * page_size - (page - 1) * page_size)
    ∧ index_total_pages ids.length page_size
      = (ids.length + page_size - 1) / page_size :=
  ⟨index_page_ids_eq_slice ids page page_size hpage,
   index_total_pages_eq_ceil ids.length page_size hps⟩

/-- Witness for index_pagination_correct: page 2 of size 2 over five ids. -/
theorem index_pagination_correct_witness :
    index_page_ids [10, 20, 30, 40, 50] 2 2
      = (List.drop ((2 - 1) * 2) [10, 20, 30, 40, 50]).take
          (2 * 2 - (2 - 1) * 2)
    ∧ index_total_pages (List.length [10, 20, 30, 40, 50]) 2
      = (List.length [10, 20, 30, 40, 50] + 2 - 1) / 2 :=
  index_pagination_correct [10, 20, 30, 40, 50] 2 2 (by decide) (by decide)

/-- The per-page loop keeps exactly the records whose fetch succeeds. -/
theorem build_results_eq_filterMap (fetch : Int → Except Unit ObjRecord)
    (l : List Int) :
    build_results fetch l
      = l.filterMap (fun oid => ((fetch oid).toOption).map result_item) := by
  induction l with
  | nil => rfl
  | cons oid rest ih =>
    cases hf : fetch oid with
    | error e =>
      simp [build_results, hf, List.filterMap_cons, Except.toOption, ih]
    | ok obj =>
      simp [build_results, hf, List.filterMap_cons, Except.toOption, ih]

/-- C5: on a successful search, no page-level error message is produced,
the rendered results are exactly the page ids whose individual fetch
succeeds, in order, and an id whose fetch raises is omitted while the
remaining ids of the page still contribute their cards. -/
theorem index_results_best_effort (ids : List Int)
    (fetch : Int → Except Unit ObjRecord) (page page_size : Nat) :
    (index_search (.ok ids) fetch page page_size).2.2 = none
    ∧ (index_search (.ok ids) fetch page page_size).1
        = (index_page_ids ids page page_size).filterMap
            (fun oid => ((fetch oid).toOption).map result_item)
    ∧ ∀ (pre post : List Int) (d : Int), fetch d = .error () →
        build_results fetch (pre ++ d :: post) = build_results fetch (pre ++ post) := by
  refine ⟨rfl, build_results_eq_filterMap fetch _, fun pre post d hd => ?_⟩
  rw [build_results_eq_filterMap, build_results_eq_filterMap]
  simp [List.filterMap_append, List.filterMap_cons, hd, Except.toOption]

/-- Record with an image, used to instantiate the theorems. -/
def objW : ObjRecord := ⟨some 9, none, none, none, some "pic", none, none⟩

/-- Fetch function failing exactly on id 2. -/
def fetchSkip2 : Int → Except Unit ObjRecord :=
  fun oid => if oid = 2 then .error () else .ok objW

/-- Witness for index_results_best_effort: id 2 fails and is skipped. -/
theorem index_results_best_effort_witness :
    (index_search (.ok [1, 2, 3]) fetchSkip2 1 3).2.2 = none
    ∧ build_results fetchSkip2 ([1] ++ 2 :: [3]) = build_results fetchSkip2 ([1] ++ [3]) := by
  obtain ⟨h1, -, h3⟩ := index_results_best_effort [1, 2, 3] fetchSkip2 1 3
  exact ⟨h1, h3 [1] [3] 2 rfl⟩

/-- The retry loop returns the first drawn id accepted by the image test,
and none when no draw is accepted. -/
theorem pick_loop_eq_find (fetch : Int → Except Unit ObjRecord) (l : List Int) :
    pick_loop fetch l = l.find? (draw_accepted fetch) := by
  induction l with
  | nil => rfl
  | cons oid rest ih =>
    cases hf : fetch oid with
    | error e => simp [pick_loop, List.find?_cons, draw_accepted, hf, ih]
    | ok obj =>
      by_cases himg : hasImageRef obj
      · simp [pick_loop, List.find?_cons, draw_accepted, hf, himg]
      · simp [pick_loop, List.find?_cons, draw_accepted, hf, himg, ih]

/-- C2: when some draw of an execution is accepted, pick_random_object
returns exactly the first drawn id whose fetched record carries a
primary-image reference, and every draw is an element of the full,
unmodified identifier list. -/
theorem pick_random_first_accepted (objectIDs : Option (List Int))
    (fetch : Int → Except Unit ObjRecord) (rand : Nat → Nat) (max_tries : Nat)
    (hne : pyOrNil objectIDs ≠ [])
    (hacc : ∃ d ∈ drawSeq (pyOrNil objectIDs) rand max_tries,
        draw_accepted fetch d = true) :
    pick_random_object (.ok objectIDs) fetch rand max_tries
      = (drawSeq (pyOrNil objectIDs) rand max_tries).find? (draw_accepted fetch)
    ∧ (pick_random_object (.ok objectIDs) fetch rand max_tries).isSome = true
    ∧ ∀ d ∈ drawSeq (pyOrNil objectIDs) rand max_tries, d ∈ pyOrNil objectIDs := by
  have heq : pick_random_object (.ok objectIDs) fetch rand max_tries
      = (drawSeq (pyOrNil objectIDs) rand max_tries).find? (draw_accepted fetch) := by
    simp only [pick_random_object]
    rw [if_neg hne]
    exact pick_loop_eq_find fetch _
  refine ⟨heq, ?_, ?_⟩
  · rw [heq, List.find?_isSome]
    obtain ⟨d, hd, ha⟩ := hacc
    exact ⟨d, hd, ha⟩
  · intro d hd
    simp only [drawSeq, List.mem_map] at hd
    obtain ⟨t, -, rfl⟩ := hd
    unfold randomChoice
    have hlen : 0 < (pyOrNil objectIDs).length := List.length_pos.mpr hne
    have hlt : rand t % (pyOrNil objectIDs).length < (pyOrNil objectIDs).length :=
      Nat.mod_lt _ hlen
    rw [List.getD_eq_getElem _ _ hlt]
    exact List.getElem_mem hlt

/-- Record without any image reference. -/
def objNoImg : ObjRecord := ⟨some 4, none, none, none, none, none, none⟩

/-- Fetch function accepting exactly id 9. -/
def fetchPick : Int → Except Unit ObjRecord :=
  fun oid => if oid = 9 then .ok objW else .ok objNoImg

/-- Identity random source: iteration t draws index t mod length. -/
def randId : Nat → Nat := fun t => t

/-- Witness for pick_random_first_accepted: two ids, the second accepted. -/
theorem pick_random_first_accepted_witness :
    pick_random_object (.ok (some [5, 9])) fetchPick randId 3
      = (drawSeq (pyOrNil (some [5, 9])) randId 3).find? (draw_accepted fetchPick)
    ∧ (pick_random_object (.ok (some [5, 9])) fetchPick randId 3).isSome = true := by
  have h := pick_random_first_accepted (some [5, 9]) fetchPick randId 3
    (by decide) (by decide)
  exact ⟨h.1, h.2.1⟩

/-- C3: the sampling of pick_random_object is bounded: the loop ranges over
exactly max_tries draws, an execution in which no draw is accepted returns
None rather than failing, and the default try budget is 30, inside the
range 20 to 30. -/
theorem pick_random_bounded (objectIDs : Option (List Int))
    (fetch : Int → Except Unit ObjRecord) (rand : Nat → Nat) (max_tries : Nat)
    (hnone : ∀ d ∈ drawSeq (pyOrNil objectIDs) rand max_tries,
        draw_accepted fetch d = false) :
    pick_random_object (.ok objectIDs) fetch rand max_tries = none
    ∧ (drawSeq (pyOrNil objectIDs) rand max_tries).length = max_tries
    ∧ DEFAULT_MAX_TRIES = 30
    ∧ 20 ≤ DEFAULT_MAX_TRIES ∧ DEFAULT_MAX_TRIES ≤ 30 := by
  refine ⟨?_, by simp [drawSeq], rfl, by norm_num [DEFAULT_MAX_TRIES],
    by norm_num [DEFAULT_MAX_TRIES]⟩
  by_cases hne : pyOrNil objectIDs = []
  · simp [pick_random_object, hne]
  · simp only [pick_random_object]
    rw [if_neg hne, pick_loop_eq_find, List.find?_eq_none]
    intro x hx
    simp [hnone x hx]

/-- Fetch function returning only records without images. -/
def fetchNoImg : Int → Except Unit ObjRecord := fun _ => .ok objNoImg

/-- Witness for pick_random_bounded: four draws, none accepted. -/
theorem pick_random_bounded_witness :
    pick_random_object (.ok (some [5, 9])) fetchNoImg randId 4 = none
    ∧ (drawSeq (pyOrNil (some [5, 9])) randId 4).length = 4 := by
  have h := pick_random_bounded (some [5, 9]) fetchNoImg randId 4 (by decide)
  exact ⟨h.1, h.2.1⟩

/-- C4: a failure of the one call listing all identifiers makes
pick_random_object return None at once, whatever the per-id fetch and the
random source would have done, while a per-id fetch failure only skips that
attempt and the loop continues on the remaining draws. -/
theorem pick_random_error_handling :
    (∀ (fetch : Int → Except Unit ObjRecord) (rand : Nat → Nat) (max_tries : Nat),
        pick_random_object (.error ()) fetch rand max_tries = none)
    ∧ ∀ (fetch : Int → Except Unit ObjRecord) (oid : Int) (rest : List Int),
        fetch oid = .error () →
        pick_loop fetch (oid :: rest) = pick_loop fetch rest := by
  refine ⟨fun _ _ _ => rfl, fun fetch oid rest hd => ?_⟩
  simp [pick_loop, hd]

/-- Fetch function that always fails. -/
def fetchErr : Int → Except Unit ObjRecord := fun _ => .error ()

/-- Witness for pick_random_error_handling. -/
theorem pick_random_error_handling_witness :
    pick_random_object (.error ()) fetchPick randId 5 = none
    ∧ pick_loop fetchErr (3 :: [4, 5]) = pick_loop fetchErr [4, 5] :=
  ⟨pick_random_error_handling.1 fetchPick randId 5,
   pick_random_error_handling.2 fetchErr 3 [4, 5] rfl⟩

/-- C8: whatever the raw query-string values, the page number used by the
search page is at least 1, the page size lies in [1, 24], absent values
default to page 1 and size 12, and the resulting slice start
(page - 1) * page_size is non-negative. -/
theorem index_request_params_clamped (raw_page raw_size : Option Int) :
    1 ≤ parse_page raw_page
    ∧ 1 ≤ parse_page_size raw_size
    ∧ parse_page_size raw_size ≤ 24
    ∧ parse_page none = 1
    ∧ parse_page_size none = 12
    ∧ 0 ≤ (parse_page raw_page - 1) * parse_page_size raw_size := by
  have h1 : 1 ≤ parse_page raw_page := le_max_right _ _
  have h2 : 1 ≤ parse_page_size raw_size :=
    le_min (le_max_right _ _) (by norm_num)
  have h3 : parse_page_size raw_size ≤ 24 := min_le_right _ _
  exact ⟨h1, h2, h3, rfl, rfl, mul_nonneg (by omega) (by omega)⟩

/-- C9: search_objects never hands back a missing value: an absent or null
objectIDs field becomes the empty list, and any present list is returned
unchanged. -/
theorem search_objects_ids_total :
    search_objects_ids none = []
    ∧ ∀ l : List Int, search_objects_ids (some l) = l := by
  refine ⟨rfl, fun l => ?_⟩
  cases l <;> simp [search_objects_ids, pyOrNil]

/-- C10: the /random route responds 502 when the picked value is None or
the id 0, and redirects to the detail page of the picked id otherwise, so
the valid object id 0 is reported as a failure. -/
theorem random_route_truthy_only :
    random_pick_route none = .httpError 502
    ∧ random_pick_route (some 0) = .httpError 502
    ∧ ∀ i : Int, i ≠ 0 → random_pick_route (some i) = .redirectTo i := by
  refine ⟨rfl, rfl, fun i hi => ?_⟩
  simp [random_pick_route, hi]

/-- Witness for random_route_truthy_only at the id 7. -/
theorem random_route_truthy_only_witness :
    random_pick_route (some 7) = .redirectTo 7 :=
  random_route_truthy_only.2.2 7 (by decide)

/-- C6 counterexample: a department filter supplied with the value 0 is
dropped from the upstream parameters rather than forwarded, because the
code tests Python truthiness, not presence. -/
theorem search_params_dept_zero_dropped :
    ¬ (search_params "cat" true (some 0) none).departmentId = some 0
    ∧ (search_params "cat" true (some 0) none).departmentId = none := by
  constructor <;> simp [search_params, truthyInt]

/-- C6 amended: an empty query is replaced by the wildcard and a non-empty
one is kept; the hasImages parameter is sent exactly when the flag is on;
the department filter is forwarded exactly when supplied with a non-zero
id; the artist/culture filter is forwarded exactly when supplied with a
non-empty string. -/
theorem search_params_forwarding (q : String) (hi : Bool) (d : Int) (s : String) :
    (search_params "" hi (some d) (some s)).q = "*"
    ∧ (q ≠ "" → (search_params q hi (some d) (some s)).q = q)
    ∧ (search_params q true (some d) (some s)).hasImages = some "true"
    ∧ (search_params q false (some d) (some s)).hasImages = none
    ∧ (d ≠ 0 → (search_params q hi (some d) (some s)).departmentId = some d)
    ∧ (search_params q hi (some 0) (some s)).departmentId = none
    ∧ (search_params q hi none (some s)).departmentId = none
    ∧ (s ≠ "" → (search_params q hi (some d) (some s)).artistOrCulture = some s)
    ∧ (search_params q hi (some d) (some "")).artistOrCulture = none
    ∧ (search_params q hi (some d) none).artistOrCulture = none := by
  refine ⟨rfl, fun hq => ?_, rfl, rfl, fun hd => ?_, ?_, ?_, fun hs => ?_, ?_, ?_⟩
  · simp [search_params, hq]
  · simp [search_params, truthyInt, hd]
  · simp [search_params, truthyInt]
  · simp [search_params, truthyInt]
  · simp [search_params, truthyStr, hs]
  · simp [search_params, truthyStr]
  · simp [search_params, truthyStr]

/-- Witness for search_params_forwarding on a concrete request. -/
theorem search_params_forwarding_witness :
    (search_params "cat" true (some 5) (some "ming")).q = "cat"
    ∧ (search_params "cat" true (some 5) (some "ming")).departmentId = some 5
    ∧ (search_params "cat" true (some 5) (some "ming")).artistOrCulture = some "ming" := by
  obtain ⟨-, h2, -, -, h5, -, -, h8, -, -⟩ :=
    search_params_forwarding "cat" true 5 "ming"
  exact ⟨h2 (by decide), h5 (by decide), h8 (by decide)⟩

/-- A key misses the cache iff it is absent from the cached keys. -/
theorem lruFind_eq_none_iff {K V : Type} [DecidableEq K] (es : List (K × V)) (k : K) :
    lruFind es k = none ↔ k ∉ es.map Prod.fst := by
  induction es with
  | nil => simp [lruFind]
  | cons p rest ih =>
    obtain ⟨k1, v⟩ := p
    by_cases h : k1 = k
    · subst h
      simp [lruFind]
    · simp [lruFind, h, ih, Ne.symm h]

/-- Truncating the right summand before an append changes nothing when the
whole append is truncated to the same length. -/
theorem take_append_take {α : Type} (a b : List α) (m : Nat) :
    (a ++ b.take m).take m = (a ++ b).take m := by
  rw [List.take_append_eq_append_take, List.take_append_eq_append_take,
    List.take_take]
  congr 1
  exact congrArg b.take (Nat.min_eq_left (Nat.sub_le m a.length))

/-- Running a sequence of distinct uncached keys through the cache leaves
as keys, most recent first, the reversed sequence followed by the old keys,
truncated to capacity; the capacity itself never changes. -/
theorem lruRun_keys {K V : Type} [DecidableEq K] (f : K → V) (ks : List K) :
    ∀ c : LruCache K V, c.entries.length ≤ c.maxsize → ks.Nodup →
      (∀ x ∈ ks, x ∉ c.entries.map Prod.fst) →
      (lruRun f c ks).entries.map Prod.fst
        = (ks.reverse ++ c.entries.map Prod.fst).take c.maxsize
      ∧ (lruRun f c ks).maxsize = c.maxsize := by
  induction ks with
  | nil =>
    intro c hlen _ _
    refine ⟨?_, rfl⟩
    rw [List.reverse_nil, List.nil_append,
      List.take_of_length_le (by simpa using hlen)]
    rfl
  | cons k ks ih =>
    intro c hlen hnodup hfresh
    have hkfresh : k ∉ c.entries.map Prod.fst := hfresh k (List.mem_cons_self k ks)
    have hfind : lruFind c.entries k = none := (lruFind_eq_none_iff _ _).mpr hkfresh
    have hstep : lruStep f c k = lruInsertState c k (f k) := by
      unfold lruStep
      rw [hfind]
    have hkeys1 : (lruStep f c k).entries.map Prod.fst
        = (k :: c.entries.map Prod.fst).take c.maxsize := by
      rw [hstep]
      unfold lruInsertState
      simp [List.map_take]
    have hmax1 : (lruStep f c k).maxsize = c.maxsize := by
      rw [hstep]
      rfl
    have hlen1 : (lruStep f c k).entries.length ≤ (lruStep f c k).maxsize := by
      rw [hstep]
      exact List.length_take_le _ _
    have hfresh1 : ∀ x ∈ ks, x ∉ (lruStep f c k).entries.map Prod.fst := by
      intro x hx hmem
      rw [hkeys1] at hmem
      rcases List.mem_cons.mp (List.mem_of_mem_take hmem) with h | h
      · exact (List.nodup_cons.mp hnodup).1 (h ▸ hx)
      · exact hfresh x (List.mem_cons_of_mem k hx) h
    obtain ⟨ihkeys, ihmax⟩ := ih (lruStep f c k) hlen1 (List.Nodup.of_cons hnodup) hfresh1
    constructor
    · show (lruRun f (lruStep f c k) ks).entries.map Prod.fst = _
      rw [ihkeys, hkeys1, hmax1, take_append_take]
      simp [List.reverse_cons, List.append_assoc]
    · show (lruRun f (lruStep f c k) ks).maxsize = c.maxsize
      rw [ihmax, hmax1]

/-- After at least maxsize distinct uncached keys go through the cache,
any key not among them has been evicted. -/
theorem lruRun_evicts {K V : Type} [DecidableEq K] (f : K → V) (c : LruCache K V)
    (ks : List K) (k : K) (hlen : c.entries.length ≤ c.maxsize)
    (hnodup : ks.Nodup) (hfresh : ∀ x ∈ ks, x ∉ c.entries.map Prod.fst)
    (hcap : c.maxsize ≤ ks.length) (hk : k ∉ ks) :
    lruFind (lruRun f c ks).entries k = none := by
  rw [lruFind_eq_none_iff, (lruRun_keys f ks c hlen hnodup hfresh).1,
    List.take_append_of_le_length (by simpa using hcap)]
  intro hmem
  exact hk (List.mem_reverse.mp (List.mem_of_mem_take hmem))

/-- A call through the cache with a total upstream returns the cached value
on a hit and the fresh value on a miss, its state is lruStep, and the
upstream runs exactly on a miss. -/
theorem lruCall_of_total {K V : Type} [DecidableEq K] (f : K → V)
    (c : LruCache K V) (k : K) :
    lruCall (fun x => Except.ok (f x)) c k
      = .ok ((lruFind c.entries k).getD (f k), lruStep f c k,
          (lruFind c.entries k).isNone) := by
  unfold lruCall lruStep
  cases h : lruFind c.entries k <;> simp [h]

/-- On a miss whose upstream succeeds, the call caches the fresh value and
reports that the upstream ran. -/
theorem lruCall_miss {K V : Type} [DecidableEq K] (f : K → Except Unit V)
    (c : LruCache K V) (k : K) (v : V)
    (h : lruFind c.entries k = none) (hf : f k = .ok v) :
    lruCall f c k = .ok (v, lruInsertState c k v, true) := by
  unfold lruCall
  rw [h, hf]

/-- Record with every field absent, the stand-in upstream value. -/
def dummyObj : ObjRecord := ⟨none, none, none, none, none, none, none⟩

/-- Upstream object fetch that always succeeds. -/
def getObjectUpstream : Int → Except Unit ObjRecord := fun _ => .ok dummyObj

/-- Pure upstream object fetch used to advance the cache state. -/
def constObj : Int → ObjRecord := fun _ => dummyObj

/-- The get_object cache right after its first successful lookup of id 0. -/
def afterFirstLookup : LruCache Int ObjRecord :=
  ⟨GET_OBJECT_CACHE_MAXSIZE, [((0 : Int), dummyObj)]⟩

/-- 4096 distinct ids, none of them 0. -/
def freshIds : List Int :=
  List.map (fun n : Nat => (n : Int) + 1) (List.range GET_OBJECT_CACHE_MAXSIZE)

/-- The get_object cache after the 4096 fresh ids have been fetched. -/
def evictedCache : LruCache Int ObjRecord :=
  lruRun constObj afterFirstLookup freshIds

/-- C7 counterexample: with the maxsize of 4096 the source gives the
get_object cache, the entry cached by the first successful lookup of id 0
is evicted once 4096 distinct other ids are fetched, and the next call for
id 0 invokes the upstream again (the final Bool component), so a cache
entry is invalidated by ordinary operations of the program and a later
call with the same key is not always served from the cache. -/
theorem get_object_cache_eviction :
    lruCall getObjectUpstream (⟨GET_OBJECT_CACHE_MAXSIZE, []⟩ : LruCache Int ObjRecord) 0
      = .ok (dummyObj, afterFirstLookup, true)
    ∧ lruFind evictedCache.entries 0 = none
    ∧ lruCall getObjectUpstream evictedCache 0
      = .ok (dummyObj, lruInsertState evictedCache 0 dummyObj, true) := by
  have hins : lruInsertState (⟨GET_OBJECT_CACHE_MAXSIZE, []⟩ : LruCache Int ObjRecord) 0 dummyObj
      = afterFirstLookup := by
    unfold lruInsertState afterFirstLookup
    congr 1
  have h1 : lruCall getObjectUpstream
      (⟨GET_OBJECT_CACHE_MAXSIZE, []⟩ : LruCache Int ObjRecord) 0
      = .ok (dummyObj, afterFirstLookup, true) := by
    show Except.ok (dummyObj,
        lruInsertState (⟨GET_OBJECT_CACHE_MAXSIZE, []⟩ : LruCache Int ObjRecord) 0 dummyObj,
        true) = _
    rw [hins]
  have hfind : lruFind evictedCache.entries 0 = none := by
    show lruFind (lruRun constObj afterFirstLookup freshIds).entries 0 = none
    apply lruRun_evicts
    · show ([((0 : Int), dummyObj)]).length ≤ GET_OBJECT_CACHE_MAXSIZE
      norm_num [GET_OBJECT_CACHE_MAXSIZE]
    · unfold freshIds
      refine List.Nodup.map ?_ (List.nodup_range _)
      intro a b h
      simpa using h
    · intro x hx hmem
      simp only [freshIds, List.mem_map, List.mem_range] at hx
      obtain ⟨n, -, rfl⟩ := hx
      simp only [afterFirstLookup, List.map_cons, List.map_nil,
        List.mem_cons, List.not_mem_nil, or_false] at hmem
      omega
    · show GET_OBJECT_CACHE_MAXSIZE ≤ freshIds.length
      unfold freshIds
      rw [List.length_map, List.length_range]
    · intro h0
      simp only [freshIds, List.mem_map, List.mem_range] at h0
      obtain ⟨n, -, hn⟩ := h0
      omega
  exact ⟨h1, hfind, lruCall_miss getObjectUpstream evictedCache 0 dummyObj hfind rfl⟩

/-- Upstream department fetch that always succeeds. -/
def deptUpstream : Unit → Except Unit (List Department) := fun _ => .ok []

/-- C7 amended: lookups are memoized by key. A call whose key is cached
returns the cached value without an upstream request; an entry leaves the
cache only through LRU eviction, that is when a call for an uncached key
finds the cache at capacity; and the departments cache, of maxsize 1 and
single key, keeps its entry for the process lifetime: after its first
successful fill, every call returns the same value without an upstream
request and leaves the cache unchanged. -/
theorem lru_cache_memoization (f : Int → Except Unit ObjRecord)
    (c : LruCache Int ObjRecord) (k : Int) (v : ObjRecord) :
    (lruFind c.entries k = some v →
      lruCall f c k = .ok (v, lruHitState c k v, false))
    ∧ (∀ (g : Int → ObjRecord) (k1 : Int), k ∈ c.entries.map Prod.fst →
        k ∉ (lruStep g c k1).entries.map Prod.fst →
        lruFind c.entries k1 = none ∧ c.maxsize ≤ c.entries.length)
    ∧ ∀ (g : Unit → Except Unit (List Department)) (w : List Department),
        lruCall g (⟨GET_DEPARTMENTS_CACHE_MAXSIZE, [((), w)]⟩ :
            LruCache Unit (List Department)) ()
          = .ok (w, ⟨GET_DEPARTMENTS_CACHE_MAXSIZE, [((), w)]⟩, false) := by
  refine ⟨fun h => ?_, fun g k1 hk hnk => ?_, fun g w => rfl⟩
  · unfold lruCall
    rw [h]
  · cases hf : lruFind c.entries k1 with
    | some w =>
      exfalso
      apply hnk
      unfold lruStep
      rw [hf]
      unfold lruHitState lruRemove
      simp only [List.map_cons, List.mem_cons]
      by_cases hkk : k = k1
      · exact Or.inl hkk
      · obtain ⟨p, hp, hpk⟩ := List.mem_map.mp hk
        exact Or.inr (List.mem_map.mpr
          ⟨p, List.mem_filter.mpr ⟨hp, by simp [hpk, hkk]⟩, hpk⟩)
    | none =>
      refine ⟨rfl, ?_⟩
      by_contra hlt
      push_neg at hlt
      apply hnk
      unfold lruStep
      rw [hf]
      unfold lruInsertState
      rw [List.take_of_length_le (by simp; omega)]
      simp only [List.map_cons, List.mem_cons]
      exact Or.inr hk

/-- Witness for lru_cache_memoization: a hit on a cached id, an eviction
forced by a miss at capacity, and a departments-cache hit. -/
theorem lru_cache_memoization_witness :
    lruCall getObjectUpstream (⟨4096, [((0 : Int), dummyObj)]⟩ : LruCache Int ObjRecord) 0
      = .ok (dummyObj,
          lruHitState (⟨4096, [((0 : Int), dummyObj)]⟩ : LruCache Int ObjRecord) 0 dummyObj,
          false)
    ∧ (lruFind (⟨1, [((5 : Int), dummyObj)]⟩ : LruCache Int ObjRecord).entries 7 = none
        ∧ (⟨1, [((5 : Int), dummyObj)]⟩ : LruCache Int ObjRecord).maxsize
            ≤ (⟨1, [((5 : Int), dummyObj)]⟩ : LruCache Int ObjRecord).entries.length)
    ∧ lruCall deptUpstream
        (⟨GET_DEPARTMENTS_CACHE_MAXSIZE, [((), ([] : List Department))]⟩ :
          LruCache Unit (List Department)) ()
        = .ok (([] : List Department),
            ⟨GET_DEPARTMENTS_CACHE_MAXSIZE, [((), ([] : List Department))]⟩, false) := by
  refine ⟨(lru_cache_memoization getObjectUpstream
      ⟨4096, [((0 : Int), dummyObj)]⟩ 0 dummyObj).1 rfl,
    (lru_cache_memoization getObjectUpstream
      ⟨1, [((5 : Int), dummyObj)]⟩ 5 dummyObj).2.1 constObj 7 (by decide) (by decide),
    (lru_cache_memoization getObjectUpstream
      ⟨4096, [((0 : Int), dummyObj)]⟩ 0 dummyObj).2.2 deptUpstream []⟩
